import Mathlib

/-!
Verification of the videoConverterServer HLS job pipeline.

The definitions below are a shallow embedding of the repository's canonical
pipeline (`hlsVideoProcessor` ESM variant), its worker (`worker.js`), its
queue configuration (`queue.js`) and its axios download retry interceptor.
JavaScript numbers that hold exact small integers or ratios of integers are
modelled as `Nat` / `Int` / `Rat`; fallible external effects are modelled by
a per-job oracle recording which effect succeeds, and the pipeline is
modelled as a function from that oracle to the list of attempted effects
(events) plus the final scratch-file state and outcome.
-/

/-- One entry of the quality ladder, as in `QUALITY_CONFIGS`:
`{ name, maxHeight, videoBitrate, audioBitrate }` where the bitrates are
strings such as `"500k"`. -/
structure QualityConfig where
  name : String
  maxHeight : Nat
  videoBitrate : String
  audioBitrate : String
deriving DecidableEq, Repr

/-- The configured quality ladder `QUALITY_CONFIGS` (360p/480p/720p/1080p). -/
def QUALITY_CONFIGS : List QualityConfig :=
  [⟨"360p", 360, "500k", "64k"⟩,
   ⟨"480p", 480, "800k", "96k"⟩,
   ⟨"720p", 720, "2500k", "128k"⟩,
   ⟨"1080p", 1080, "5000k", "192k"⟩]

/-- JavaScript `parseInt` restricted to the shapes used by the source
(strings beginning with decimal digits, such as `"500k"`): reads the leading
run of decimal digits; `none` models `NaN` when no leading digit exists.
Sign prefixes, whitespace and hex forms never occur in the repository's
inputs and are not modelled. -/
def jsParseInt (s : String) : Option Nat :=
  let ds := s.toList.takeWhile Char.isDigit
  if ds.isEmpty then none
  else some (ds.foldl (fun a c => a * 10 + (c.toNat - 48)) 0)

/-- The `BANDWIDTH=` field text of one master-playlist entry:
`(parseInt(videoBitrate) + parseInt(audioBitrate)) * 1000`, rendering the
`NaN` case the way a JS template literal would. -/
def bandwidthText (c : QualityConfig) : String :=
  match jsParseInt c.videoBitrate, jsParseInt c.audioBitrate with
  | some v, some a => toString ((v + a) * 1000)
  | _, _ => "NaN"

/-- One element of the `QUALITY_CONFIGS.map(...)` array inside
`createMasterPlaylist`: the `#EXT-X-STREAM-INF` line (whose RESOLUTION field
is written as `maxHeight x maxHeight` by the source) followed by the relative
path of that profile's variant playlist. -/
def masterPlaylistEntry (c : QualityConfig) : String :=
  "#EXT-X-STREAM-INF:BANDWIDTH=" ++ bandwidthText c ++ ",RESOLUTION=" ++
    toString c.maxHeight ++ "x" ++ toString c.maxHeight ++ "\n" ++
    c.name ++ "/segments/playlist.m3u8"

/-- The function `createMasterPlaylist`: the full text written to `master.m3u8`
(header, then the mapped entries joined by newlines). -/
def createMasterPlaylist (ladder : List QualityConfig) : String :=
  "#EXTM3U\n#EXT-X-VERSION:3\n" ++
    String.intercalate "\n" (ladder.map masterPlaylistEntry)

/-- JavaScript `Math.round` on an exact rational: half-up rounding. -/
def jsRound (x : Rat) : Int := ⌊x + 1 / 2⌋

/-- The transcoder's target-width computation for one profile:
`targetWidth = Math.round(maxHeight * aspectRatio)`, then `+ 1` if odd
(the codec evenness constraint). -/
def targetWidth (maxHeight : Nat) (aspectRatio : Rat) : Int :=
  if jsRound (maxHeight * aspectRatio) % 2 ≠ 0 then jsRound (maxHeight * aspectRatio) + 1
  else jsRound (maxHeight * aspectRatio)

/-- C2 helper: the claimed 1-pixel bound on the width error, as a predicate. -/
def widthErrorWithin (maxHeight : Nat) (aspectRatio : Rat) (bound : Rat) : Prop :=
  |(targetWidth maxHeight aspectRatio : Rat) - maxHeight * aspectRatio| ≤ bound

/-- Per-job effect oracle: which external effect of one `processVideoToHLS`
execution succeeds. Fields whose failure the source swallows after logging
(the `master.mpd` delete, both status posts, every cleanup step) are carried
here but, faithfully to the source's try/catch structure, never influence
the run. -/
structure Oracle where
  download : Bool
  probe : Bool
  thumbnail : Bool
  encode : Nat → Bool
  segment : Nat → Bool
  writeMaster : Bool
  s3DeleteOk : Bool
  uploadFile : Nat → Bool
  postFailedOk : Bool
  postDoneOk : Bool
  removeInputOk : Bool
  removeOutputOk : Bool
  removeTmpOk : Bool

/-- An attempted external effect of one job execution, in order. -/
inductive Event where
  | download
  | probe
  | thumbnail
  | encode (quality : String)
  | segment (quality : String)
  | writeMasterPlaylist
  | s3Delete (key : String)
  | s3Upload (key : String)
  | postStatus (status : String)
  | fsRemoveInput
  | fsRemoveOutput
  | fsRemoveTmp
deriving DecidableEq, Repr

/-- The per-quality loop of `processVideoToHLS`: for each ladder entry,
attempt the encode, then the segmenting; the first failure throws and aborts
the rest of the loop. Returns the attempted events and whether the whole
loop succeeded. -/
def processQualities (encodeOk segmentOk : Nat → Bool) :
    List QualityConfig → Nat → List Event × Bool
  | [], _ => ([], true)
  | c :: rest, k =>
    if encodeOk k then
      if segmentOk k then
        let r := processQualities encodeOk segmentOk rest (k + 1)
        (Event.encode c.name :: Event.segment c.name :: r.1, r.2)
      else ([Event.encode c.name, Event.segment c.name], false)
    else ([Event.encode c.name], false)

/-- The function `uploadToS3`: uploads each file under the output tree to
`savePath + "/" + relativePath`; the first failed upload throws and aborts
the remaining uploads. -/
def uploadToS3 (uploadOk : Nat → Bool) (savePath : String) :
    List String → Nat → List Event × Bool
  | [], _ => ([], true)
  | f :: rest, k =>
    if uploadOk k then
      let r := uploadToS3 uploadOk savePath rest (k + 1)
      (Event.s3Upload (savePath ++ "/" ++ f) :: r.1, r.2)
    else ([Event.s3Upload (savePath ++ "/" ++ f)], false)

/-- The `try` block of `processVideoToHLS`: download, probe, thumbnail, the
per-quality loop, the master-playlist write, the swallowed `master.mpd`
delete, then the recursive upload. Returns the attempted events, whether the
block completed, and whether the scratch input file was created (it exists
once the download succeeds). -/
def tryPhase (o : Oracle) (ladder : List QualityConfig) (files : List String)
    (savePath : String) : List Event × Bool × Bool :=
  if o.download then
    if o.probe then
      if o.thumbnail then
        let enc := processQualities o.encode o.segment ladder 0
        if enc.2 then
          if o.writeMaster then
            let up := uploadToS3 o.uploadFile savePath files 0
            ([Event.download, Event.probe, Event.thumbnail] ++ enc.1 ++
              [Event.writeMasterPlaylist, Event.s3Delete (savePath ++ "/master.mpd")] ++ up.1,
             up.2, true)
          else
            ([Event.download, Event.probe, Event.thumbnail] ++ enc.1 ++
              [Event.writeMasterPlaylist], false, true)
        else
          ([Event.download, Event.probe, Event.thumbnail] ++ enc.1, false, true)
      else ([Event.download, Event.probe, Event.thumbnail], false, true)
    else ([Event.download, Event.probe], false, true)
  else ([Event.download], false, false)

/-- Final state of one job execution: the attempted effects in order, the
outcome `processVideoToHLS` reports to its caller (`true` = returned the
result object, `false` = re-threw the pipeline error), and whether each
scratch path still exists. -/
structure JobRun where
  events : List Event
  success : Bool
  inputExists : Bool
  outputExists : Bool
  tmpExists : Bool
deriving Repr

/-- The function `processVideoToHLS` in full: the `try` block, the `catch` block (log,
attempt the `failed` status post, re-throw), and the `finally` block
(existence-checked input and output removal, workspace-root removal, each
individually caught; then the `done` status post, only when no pipeline
error occurred, its own failure also swallowed). -/
def processVideoToHLS (o : Oracle) (ladder : List QualityConfig) (files : List String)
    (savePath : String) : JobRun :=
  let t := tryPhase o ladder files savePath
  let catchEvents : List Event := if t.2.1 then [] else [Event.postStatus "failed"]
  let inputCleanup : List Event × Bool :=
    if t.2.2 then ([Event.fsRemoveInput], !o.removeInputOk) else ([], false)
  let doneEvents : List Event := if t.2.1 then [Event.postStatus "done"] else []
  { events := t.1 ++ catchEvents ++ inputCleanup.1 ++
      [Event.fsRemoveOutput, Event.fsRemoveTmp] ++ doneEvents
    success := t.2.1
    inputExists := inputCleanup.2
    outputExists := !o.removeOutputOk
    tmpExists := !o.removeTmpOk }

/-- Event classifier: status-post attempt. -/
def Event.isPost : Event → Bool
  | Event.postStatus _ => true
  | _ => false

/-- Event classifier: S3 upload attempt. -/
def Event.isUpload : Event → Bool
  | Event.s3Upload _ => true
  | _ => false

/-- Event classifier: any destination (S3) mutation attempt. -/
def Event.isS3 : Event → Bool
  | Event.s3Upload _ => true
  | Event.s3Delete _ => true
  | _ => false

/-- The same oracle with the three cleanup-step outcomes replaced (used to
state that cleanup failures never change what the caller sees). -/
def setCleanupFlags (o : Oracle) (c₁ c₂ c₃ : Bool) : Oracle :=
  { o with removeInputOk := c₁, removeOutputOk := c₂, removeTmpOk := c₃ }

/-- The same oracle with the two status-post outcomes replaced (used to
state that status-callback failures never change what the caller sees). -/
def setPostFlags (o : Oracle) (b₁ b₂ : Bool) : Oracle :=
  { o with postFailedOk := b₁, postDoneOk := b₂ }

/-- An oracle under which every external effect succeeds. -/
def oracleAllOk : Oracle :=
  ⟨true, true, true, fun _ => true, fun _ => true, true, true, fun _ => true,
   true, true, true, true, true⟩

/-- An oracle whose encode fails at ladder index 2 (the 720p rung of the
configured ladder), everything else succeeding. -/
def oracleEncodeFail : Oracle :=
  ⟨true, true, true, fun k => k != 2, fun _ => true, true, true, fun _ => true,
   true, true, true, true, true⟩

/-- An oracle whose download fails, everything else succeeding. -/
def oracleDownloadFail : Oracle :=
  ⟨false, true, true, fun _ => true, fun _ => true, true, true, fun _ => true,
   true, true, true, true, true⟩

/-- Splitter on a single separator character (the JS `String.split` shape
used by the frame-rate expression grammar), written by structural recursion
over the characters so that concrete instances evaluate. -/
def splitOnChar (sep : Char) (s : String) : List String :=
  (s.toList.foldr (fun c acc =>
      match acc with
      | cur :: rest => if c = sep then [] :: cur :: rest else (c :: cur) :: rest
      | [] => [[c]]) [[]]).map (fun l => String.mk l)

/-- Digits-only numeral parser used by the frame-rate models: `some` exactly
when the string is a nonempty run of decimal digits. -/
def parseNatDigits (s : String) : Option Nat :=
  if s.toList ≠ [] ∧ s.toList.all Char.isDigit then
    some (s.toList.foldl (fun a c => a * 10 + (c.toNat - 48)) 0)
  else none

/-- Parse every element of a list of numeral strings, failing if any fails. -/
def parseAllNat : List String → Option (List Nat)
  | [] => some []
  | s :: rest =>
    match parseNatDigits s, parseAllNat rest with
    | some n, some ns => some (n :: ns)
    | _, _ => none

/-- One division chain `a/b/c/...` of a JS arithmetic expression, evaluated
left to right; division by zero (JS `Infinity`/`NaN`) is modelled as `none`. -/
def evalDivChain (s : String) : Option Rat :=
  match parseAllNat (splitOnChar '/' s) with
  | some [] => none
  | some (n :: ds) =>
    if ds.contains 0 then none
    else some (ds.foldl (fun a d => a / (d : Rat)) (n : Rat))
  | none => none

/-- Evaluate every division chain of a product, failing if any fails. -/
def evalAllDiv : List String → Option (List Rat)
  | [] => some []
  | s :: rest =>
    match evalDivChain s, evalAllDiv rest with
    | some x, some xs => some (x :: xs)
    | _, _ => none

/-- One product chain `t*u*...`, each factor a division chain. -/
def evalProdChain (s : String) : Option Rat :=
  match evalAllDiv (splitOnChar '*' s) with
  | some fs => some (fs.foldl (fun a b => a * b) 1)
  | none => none

/-- Evaluate every product chain of a sum, failing if any fails. -/
def evalAllProd : List String → Option (List Rat)
  | [] => some []
  | s :: rest =>
    match evalProdChain s, evalAllProd rest with
    | some x, some xs => some (x :: xs)
    | _, _ => none

/-- The frame-rate computation of `getVideoInfo`: the source passes the
probed `r_frame_rate` string to JavaScript `eval`. This models that `eval`
on the sublanguage of arithmetic expressions over natural numerals with
`+`, `*` and `/` (standard precedence, left association); full `eval`
accepts arbitrary JavaScript far beyond this fragment. -/
def getVideoInfoFrameRate (s : String) : Option Rat :=
  match evalAllProd (splitOnChar '+' s) with
  | some ts => some (ts.foldl (fun a b => a + b) 0)
  | none => none

/-- Modelled from the spec: the safe frame-rate parser the spec requires
("explicit numeric parsing and division" of a `numerator/denominator`
string); the repository contains no such parser, only the `eval` call. -/
def specParseFrameRate (s : String) : Option Rat :=
  match splitOnChar '/' s with
  | [n, d] =>
    match parseNatDigits n, parseNatDigits d with
    | some a, some b => if b = 0 then none else some ((a : Rat) / b)
    | _, _ => none
  | _ => none

/-- Maximum number of retries of the axios response interceptor. -/
def maxRetries : Nat := 3

/-- Backoff delay of the interceptor after incrementing the retry count:
`Math.pow(2, retryCount) * 1000` milliseconds. -/
def retryDelay (retryCount : Nat) : Nat := 2 ^ retryCount * 1000

/-- The request timeout passed to the download GET (overriding the
instance default of 30000). -/
def downloadGetTimeoutMs : Nat := 60000

/-- The `maxContentLength` of the axios instance: the bounded payload size. -/
def axiosMaxContentLength : Nat := 50 * 1024 * 1024

/-- The interceptor's retry loop: try attempt `i` (attempt `0` is the
original request); on failure, while the retry count is below `maxRetries`,
wait `retryDelay (i + 1)` and retry. Returns whether some attempt succeeded
and the list of delays waited, in order. The fuel argument is
`maxRetries + 1 - i`, enough for the remaining attempts. -/
def retryFrom (ok : Nat → Bool) : Nat → Nat → Bool × List Nat
  | 0, _ => (false, [])
  | fuel + 1, i =>
    if ok i then (true, [])
    else if i < maxRetries then
      let r := retryFrom ok fuel (i + 1)
      (r.1, retryDelay (i + 1) :: r.2)
    else (false, [])

/-- One downloaded request through the interceptor, starting at attempt 0. -/
def axiosRequestRun (ok : Nat → Bool) : Bool × List Nat :=
  retryFrom ok (maxRetries + 1) 0

/-- The `defaultJobOptions` attached to the BullMQ queue at construction:
`{ attempts, backoff: { type, delay }, removeOnComplete, removeOnFail }`. -/
structure DefaultJobOptions where
  attempts : Nat
  backoffType : String
  backoffDelay : Nat
  removeOnComplete : Bool
  removeOnFail : Bool
deriving DecidableEq, Repr

/-- The options the source passes when constructing the
`video-processing-reel` queue. -/
def videoQueueOptions : DefaultJobOptions :=
  ⟨3, "exponential", 1000, true, false⟩

/-- Modelled from the spec: the delay the queue's `exponential` backoff
policy applies, `delay = base * 2 ^ attempt` (the policy itself lives in the
external queue library, not in this repository; the repository only selects
it and its base). -/
def exponentialBackoffDelay (base attempt : Nat) : Nat := base * 2 ^ attempt

/-- The three field values a worker payload shape can carry; a JS field
reads as `none` when absent (`undefined`). -/
structure JobFields where
  reelId : Option String
  videoUrl : Option String
  folderPath : Option String
deriving DecidableEq, Repr

/-- A dequeued job's `data`, with its three possible shapes: a nested `data`
object (Laravel format), a nested `command` object (Laravel serialized
format), and the flat BullMQ fields. -/
structure JobData where
  nested : Option JobFields
  command : Option JobFields
  flat : JobFields
deriving DecidableEq, Repr

/-- JavaScript truthiness of an optional string value: `undefined` and the
empty string are falsy. -/
def jsTruthy : Option String → Bool
  | none => false
  | some s => s ≠ ""

/-- The worker's field extraction, in the source's precedence order:
`job.data.data` first, else `job.data.command`, else the flat fields. -/
def extractJobFields (d : JobData) : Option String × Option String × Option String :=
  match d.nested with
  | some l => (l.reelId, l.videoUrl, l.folderPath)
  | none =>
    match d.command with
    | some c => (c.reelId, c.videoUrl, c.folderPath)
    | none => (d.flat.reelId, d.flat.videoUrl, d.flat.folderPath)

/-- Result of one worker callback invocation. -/
inductive WorkerResult where
  | success
  | failure (message : String)
deriving DecidableEq, Repr

/-- The worker callback: extract the three fields, throw
`Missing required fields in job data` when any is falsy (before the pipeline
is invoked — the event list is then empty), otherwise run
`processVideoToHLS` and mirror its outcome. -/
def workerCallback (d : JobData) (o : Oracle) (ladder : List QualityConfig)
    (files : List String) (savePath : String) : WorkerResult × List Event :=
  let f := extractJobFields d
  if jsTruthy f.1 && jsTruthy f.2.1 && jsTruthy f.2.2 then
    let r := processVideoToHLS o ladder files savePath
    (if r.success then WorkerResult.success else WorkerResult.failure "processing error",
     r.events)
  else (WorkerResult.failure "Missing required fields in job data", [])

/-- C1 (amended): for every ladder the master playlist is the fixed header
followed by exactly one entry per profile, in ladder order; each entry's
`BANDWIDTH` is `(videoBitrate + audioBitrate) * 1000` when both bitrates
parse, its `RESOLUTION` is `maxHeight x maxHeight` (the source never uses the
computed target width here), and it ends with the relative variant-playlist
path. -/
theorem createMasterPlaylist_entries (ladder : List QualityConfig) :
    createMasterPlaylist ladder =
      "#EXTM3U\n#EXT-X-VERSION:3\n" ++
        String.intercalate "\n" (ladder.map masterPlaylistEntry)
    ∧ (ladder.map masterPlaylistEntry).length = ladder.length
    ∧ ∀ c ∈ ladder, ∀ v a : Nat,
        jsParseInt c.videoBitrate = some v → jsParseInt c.audioBitrate = some a →
        masterPlaylistEntry c =
          "#EXT-X-STREAM-INF:BANDWIDTH=" ++ toString ((v + a) * 1000) ++
            ",RESOLUTION=" ++ toString c.maxHeight ++ "x" ++ toString c.maxHeight ++
            "\n" ++ c.name ++ "/segments/playlist.m3u8" := by
  refine ⟨rfl, List.length_map _ _, ?_⟩
  intro c _ v a hv ha
  simp [masterPlaylistEntry, bandwidthText, hv, ha]

/-- C1 witness: the amended statement evaluated on the configured ladder's
360p profile (bandwidth (500 + 64) * 1000 = 564000). -/
theorem createMasterPlaylist_entries_witness :
    masterPlaylistEntry ⟨"360p", 360, "500k", "64k"⟩ =
      "#EXT-X-STREAM-INF:BANDWIDTH=564000,RESOLUTION=360x360\n360p/segments/playlist.m3u8" := by
  have h := (createMasterPlaylist_entries QUALITY_CONFIGS).2.2
    ⟨"360p", 360, "500k", "64k"⟩ (by decide) 500 64 (by decide) (by decide)
  simpa using h

/-- C1 counterexample: for the 360p profile and a 1280 x 720 source the
computed target width is 640, yet the playlist entry carries
`RESOLUTION=360x360`, not the claimed `RESOLUTION=640x360`. -/
theorem createMasterPlaylist_resolution_cex :
    masterPlaylistEntry ⟨"360p", 360, "500k", "64k"⟩ =
      "#EXT-X-STREAM-INF:BANDWIDTH=564000,RESOLUTION=360x360\n360p/segments/playlist.m3u8"
    ∧ targetWidth 360 (1280 / 720 : Rat) = 640
    ∧ ("#EXT-X-STREAM-INF:BANDWIDTH=564000,RESOLUTION=360x360\n360p/segments/playlist.m3u8" : String) ≠
      "#EXT-X-STREAM-INF:BANDWIDTH=564000,RESOLUTION=640x360\n360p/segments/playlist.m3u8" := by
  have h : jsRound ((360 : Nat) * (1280 / 720 : Rat)) = 640 := by
    unfold jsRound
    norm_num
  refine ⟨by decide, ?_, by decide⟩
  simp only [targetWidth, h]
  norm_num

/-- C2 (amended): the computed target width is always even, it is the least
even integer at or above `Math.round(maxHeight * aspectRatio)`, and its
error against the exact aspect-preserving width is at most 1.5 pixels (the
claimed 1-pixel bound fails, see the counterexample). -/
theorem targetWidth_even_and_bound (mh : Nat) (ar : Rat) :
    targetWidth mh ar % 2 = 0
    ∧ IsLeast {w : Int | w % 2 = 0 ∧ jsRound (mh * ar) ≤ w} (targetWidth mh ar)
    ∧ widthErrorWithin mh ar (3 / 2) := by
  have hfl : ((jsRound (mh * ar) : Int) : Rat) ≤ mh * ar + 1 / 2 := Int.floor_le _
  have hfu : (mh * ar + 1 / 2 : Rat) < jsRound (mh * ar) + 1 := Int.lt_floor_add_one _
  simp only [widthErrorWithin, targetWidth]
  by_cases h : jsRound (mh * ar) % 2 = 0
  · rw [if_neg (by omega)]
    refine ⟨h, ⟨⟨h, le_refl _⟩, ?_⟩, ?_⟩
    · intro w hw
      simp only [Set.mem_setOf_eq] at hw
      exact hw.2
    · rw [abs_le]
      constructor <;> linarith
  · rw [if_pos (by omega)]
    refine ⟨by omega, ⟨⟨by omega, by omega⟩, ?_⟩, ?_⟩
    · intro w hw
      simp only [Set.mem_setOf_eq] at hw
      omega
    · rw [abs_le]
      push_cast
      constructor <;> linarith

/-- C2 counterexample: a 720 x 1280 portrait source at the 360p rung gives
target width 204 while the exact width is 202.5, an error of 1.5 pixels,
strictly more than the claimed 1 pixel. -/
theorem targetWidth_error_exceeds_one_pixel :
    targetWidth 360 (720 / 1280 : Rat) = 204
    ∧ |(204 : Rat) - 360 * (720 / 1280)| = 3 / 2
    ∧ ¬ ((3 / 2 : Rat) ≤ 1) := by
  have h : jsRound ((360 : Nat) * (720 / 1280 : Rat)) = 203 := by
    unfold jsRound
    norm_num
  refine ⟨?_, by norm_num [abs_of_nonneg], by norm_num⟩
  simp only [targetWidth, h]
  norm_num

/-- Every event of the per-quality loop is an encode or a segment attempt. -/
theorem processQualities_events (encodeOk segmentOk : Nat → Bool)
    (l : List QualityConfig) :
    ∀ (k : Nat) (e : Event), e ∈ (processQualities encodeOk segmentOk l k).1 →
      (∃ q, e = Event.encode q) ∨ (∃ q, e = Event.segment q) := by
  induction l with
  | nil =>
    intro k e h
    simp [processQualities] at h
  | cons c rest ih =>
    intro k e h
    by_cases he : encodeOk k
    · by_cases hs : segmentOk k
      · simp [processQualities, he, hs] at h
        rcases h with h | h | h
        · exact Or.inl ⟨c.name, h⟩
        · exact Or.inr ⟨c.name, h⟩
        · exact ih (k + 1) e h
      · simp [processQualities, he, hs] at h
        rcases h with h | h
        · exact Or.inl ⟨c.name, h⟩
        · exact Or.inr ⟨c.name, h⟩
    · simp [processQualities, he] at h
      exact Or.inl ⟨c.name, h⟩

/-- The per-quality loop reports success only when every encode and every
segmenting attempt of the ladder succeeded. -/
theorem processQualities_ok (encodeOk segmentOk : Nat → Bool) (l : List QualityConfig) :
    ∀ k : Nat, (processQualities encodeOk segmentOk l k).2 = true →
      ∀ j, j < l.length → encodeOk (k + j) = true ∧ segmentOk (k + j) = true := by
  induction l with
  | nil =>
    intro k _ j hj
    simp at hj
  | cons c rest ih =>
    intro k hok j hj
    by_cases he : encodeOk k
    · by_cases hs : segmentOk k
      · simp [processQualities, he, hs] at hok
        cases j with
        | zero => simpa using ⟨he, hs⟩
        | succ j =>
          have h2 := ih (k + 1) hok j (by simpa using hj)
          have h3 : k + (j + 1) = k + 1 + j := by omega
          rw [h3]
          exact h2
      · simp [processQualities, he, hs] at hok
    · simp [processQualities, he] at hok

/-- Every event of the upload loop is an upload attempt. -/
theorem uploadToS3_events (uploadOk : Nat → Bool) (savePath : String)
    (files : List String) :
    ∀ (k : Nat) (e : Event), e ∈ (uploadToS3 uploadOk savePath files k).1 →
      ∃ key, e = Event.s3Upload key := by
  induction files with
  | nil =>
    intro k e h
    simp [uploadToS3] at h
  | cons f rest ih =>
    intro k e h
    by_cases hu : uploadOk k
    · simp [uploadToS3, hu] at h
      rcases h with h | h
      · exact ⟨_, h⟩
      · exact ih (k + 1) e h
    · simp [uploadToS3, hu] at h
      exact ⟨_, h⟩

/-- No event of the try block is a status post or a scratch removal: those
happen only in the catch and finally blocks. -/
theorem tryPhase_no_post_no_cleanup (o : Oracle) (ladder : List QualityConfig)
    (files : List String) (savePath : String) :
    ∀ e ∈ (tryPhase o ladder files savePath).1,
      e.isPost = false ∧ e ≠ Event.fsRemoveInput := by
  intro e he
  by_cases hd : o.download
  · by_cases hp : o.probe
    · by_cases hth : o.thumbnail
      · by_cases henc : (processQualities o.encode o.segment ladder 0).2
        · by_cases hwm : o.writeMaster
          · simp [tryPhase, hd, hp, hth, henc, hwm] at he
            rcases he with rfl | rfl | rfl | he | rfl | rfl | he
            · exact ⟨rfl, by simp⟩
            · exact ⟨rfl, by simp⟩
            · exact ⟨rfl, by simp⟩
            · rcases processQualities_events o.encode o.segment ladder 0 e he with
                ⟨q, rfl⟩ | ⟨q, rfl⟩ <;> exact ⟨rfl, by simp⟩
            · exact ⟨rfl, by simp⟩
            · exact ⟨rfl, by simp⟩
            · obtain ⟨key, rfl⟩ := uploadToS3_events o.uploadFile savePath files 0 e he
              exact ⟨rfl, by simp⟩
          · simp [tryPhase, hd, hp, hth, henc, hwm] at he
            rcases he with rfl | rfl | rfl | he | rfl
            · exact ⟨rfl, by simp⟩
            · exact ⟨rfl, by simp⟩
            · exact ⟨rfl, by simp⟩
            · rcases processQualities_events o.encode o.segment ladder 0 e he with
                ⟨q, rfl⟩ | ⟨q, rfl⟩ <;> exact ⟨rfl, by simp⟩
            · exact ⟨rfl, by simp⟩
        · simp [tryPhase, hd, hp, hth, henc] at he
          rcases he with rfl | rfl | rfl | he
          · exact ⟨rfl, by simp⟩
          · exact ⟨rfl, by simp⟩
          · exact ⟨rfl, by simp⟩
          · rcases processQualities_events o.encode o.segment ladder 0 e he with
              ⟨q, rfl⟩ | ⟨q, rfl⟩ <;> exact ⟨rfl, by simp⟩
      · simp [tryPhase, hd, hp, hth] at he
        rcases he with rfl | rfl | rfl <;> exact ⟨rfl, by simp⟩
    · simp [tryPhase, hd, hp] at he
      rcases he with rfl | rfl <;> exact ⟨rfl, by simp⟩
  · simp [tryPhase, hd] at he
    subst he
    exact ⟨rfl, by simp⟩

/-- When the per-quality loop fails, the try block attempts no S3 effect. -/
theorem tryPhase_no_s3_of_enc_fail (o : Oracle) (ladder : List QualityConfig)
    (files : List String) (savePath : String)
    (henc : (processQualities o.encode o.segment ladder 0).2 = false) :
    ∀ e ∈ (tryPhase o ladder files savePath).1, e.isS3 = false := by
  intro e he
  by_cases hd : o.download
  · by_cases hp : o.probe
    · by_cases hth : o.thumbnail
      · simp [tryPhase, hd, hp, hth, henc] at he
        rcases he with rfl | rfl | rfl | he
        · rfl
        · rfl
        · rfl
        · rcases processQualities_events o.encode o.segment ladder 0 e he with
            ⟨q, rfl⟩ | ⟨q, rfl⟩ <;> rfl
      · simp [tryPhase, hd, hp, hth] at he
        rcases he with rfl | rfl | rfl <;> rfl
    · simp [tryPhase, hd, hp] at he
      rcases he with rfl | rfl <;> rfl
  · simp [tryPhase, hd] at he
    subst he
    rfl

/-- When the per-quality loop fails, the whole run attempts no S3 effect
(the catch and finally blocks only post statuses and remove scratch paths). -/
theorem run_no_s3_of_enc_fail (o : Oracle) (ladder : List QualityConfig)
    (files : List String) (savePath : String)
    (henc : (processQualities o.encode o.segment ladder 0).2 = false) :
    ∀ e ∈ (processVideoToHLS o ladder files savePath).events, e.isS3 = false := by
  intro e he
  by_cases hs : (tryPhase o ladder files savePath).2.1 <;>
    by_cases hi : (tryPhase o ladder files savePath).2.2 <;>
    simp [processVideoToHLS, hs, hi] at he <;>
    · rcases he with he | he
      · exact tryPhase_no_s3_of_enc_fail o ladder files savePath henc e he
      · rcases he with rfl | rfl | rfl | rfl <;> rfl

/-- A per-quality failure at index `k` of the ladder forces the whole loop
to report failure. -/
theorem processQualities_fail_of_index (o : Oracle) (ladder : List QualityConfig)
    (k : Nat) (hk : k < ladder.length)
    (hfail : o.encode k = false ∨ o.segment k = false) :
    (processQualities o.encode o.segment ladder 0).2 = false := by
  by_contra hcon
  have h2 : (processQualities o.encode o.segment ladder 0).2 = true := by
    revert hcon
    cases (processQualities o.encode o.segment ladder 0).2 <;> simp
  have h3 := processQualities_ok o.encode o.segment ladder 0 h2 k hk
  rcases hfail with hf | hf <;> simp [hf] at h3

/-- C3: if transcoding (encode or segmenting) fails at any quality index of
the ladder, the job attempts no S3 effect at all: nothing is uploaded and
nothing is deleted at the destination prefix, which therefore remains
exactly as before the job ran. -/
theorem transcode_failure_never_uploads (o : Oracle) (ladder : List QualityConfig)
    (files : List String) (savePath : String) (k : Nat)
    (hk : k < ladder.length) (hfail : o.encode k = false ∨ o.segment k = false) :
    (∀ key, Event.s3Upload key ∉ (processVideoToHLS o ladder files savePath).events)
    ∧ ∀ key, Event.s3Delete key ∉ (processVideoToHLS o ladder files savePath).events := by
  have henc := processQualities_fail_of_index o ladder k hk hfail
  constructor <;> intro key hmem <;>
    have h4 := run_no_s3_of_enc_fail o ladder files savePath henc _ hmem <;>
    simp [Event.isS3] at h4

/-- C4: on every exit path the cleanup runs: each scratch path whose removal
succeeds is gone afterwards, the input-file removal is skipped when the
download never created the file, the output-tree and workspace-root removals
are always attempted, and cleanup failures never change the outcome the
caller sees. -/
theorem cleanup_every_exit_path (o : Oracle) (ladder : List QualityConfig)
    (files : List String) (savePath : String) :
    ((o.removeInputOk = true → (processVideoToHLS o ladder files savePath).inputExists = false)
      ∧ (o.removeOutputOk = true → (processVideoToHLS o ladder files savePath).outputExists = false)
      ∧ (o.removeTmpOk = true → (processVideoToHLS o ladder files savePath).tmpExists = false))
    ∧ (o.download = false → Event.fsRemoveInput ∉ (processVideoToHLS o ladder files savePath).events)
    ∧ (Event.fsRemoveOutput ∈ (processVideoToHLS o ladder files savePath).events
      ∧ Event.fsRemoveTmp ∈ (processVideoToHLS o ladder files savePath).events)
    ∧ ∀ c₁ c₂ c₃ : Bool,
        (processVideoToHLS (setCleanupFlags o c₁ c₂ c₃) ladder files savePath).success =
          (processVideoToHLS o ladder files savePath).success := by
  refine ⟨⟨?_, ?_, ?_⟩, ?_, ?_, fun c₁ c₂ c₃ => rfl⟩
  · intro h
    by_cases hi : (tryPhase o ladder files savePath).2.2 <;>
      simp [processVideoToHLS, hi, h]
  · intro h
    simp [processVideoToHLS, h]
  · intro h
    simp [processVideoToHLS, h]
  · intro hd
    simp [processVideoToHLS, tryPhase, hd]
  · by_cases hs : (tryPhase o ladder files savePath).2.1 <;>
      by_cases hi : (tryPhase o ladder files savePath).2.2 <;>
      simp [processVideoToHLS, hs, hi]

/-- C5: the terminal status report is best-effort and truthful: the outcome
and events of a run are unchanged by status-post failures (the source
swallows them after logging), the `done` post is attempted exactly on
pipeline success and the `failed` post exactly on pipeline failure, and
cleanup failures never flip the reported outcome either. -/
theorem status_best_effort (o : Oracle) (ladder : List QualityConfig)
    (files : List String) (savePath : String) :
    (∀ b₁ b₂ : Bool,
      processVideoToHLS (setPostFlags o b₁ b₂) ladder files savePath =
        processVideoToHLS o ladder files savePath)
    ∧ ((processVideoToHLS o ladder files savePath).success = true →
        Event.postStatus "done" ∈ (processVideoToHLS o ladder files savePath).events
        ∧ Event.postStatus "failed" ∉ (processVideoToHLS o ladder files savePath).events)
    ∧ ((processVideoToHLS o ladder files savePath).success = false →
        Event.postStatus "failed" ∈ (processVideoToHLS o ladder files savePath).events
        ∧ Event.postStatus "done" ∉ (processVideoToHLS o ladder files savePath).events)
    ∧ ∀ c₁ c₂ c₃ : Bool,
        (processVideoToHLS (setCleanupFlags o c₁ c₂ c₃) ladder files savePath).success =
          (processVideoToHLS o ladder files savePath).success := by
  refine ⟨fun b₁ b₂ => rfl, ?_, ?_, fun c₁ c₂ c₃ => rfl⟩
  · intro hsucc
    have hs : (tryPhase o ladder files savePath).2.1 = true := by
      simpa [processVideoToHLS] using hsucc
    constructor
    · by_cases hi : (tryPhase o ladder files savePath).2.2 <;>
        simp [processVideoToHLS, hs, hi]
    · intro hmem
      by_cases hi : (tryPhase o ladder files savePath).2.2 <;>
        simp [processVideoToHLS, hs, hi] at hmem <;>
        simpa [Event.isPost] using (tryPhase_no_post_no_cleanup o ladder files savePath _ hmem).1
  · intro hfailv
    have hs : (tryPhase o ladder files savePath).2.1 = false := by
      simpa [processVideoToHLS] using hfailv
    constructor
    · by_cases hi : (tryPhase o ladder files savePath).2.2 <;>
        simp [processVideoToHLS, hs, hi]
    · intro hmem
      by_cases hi : (tryPhase o ladder files savePath).2.2 <;>
        simp [processVideoToHLS, hs, hi] at hmem <;>
        simpa [Event.isPost] using (tryPhase_no_post_no_cleanup o ladder files savePath _ hmem).1

/-- C9 (amended): whenever a job uploads anything, the one destination
delete the source performs — of the `master.mpd` object at the destination
prefix, not of the master playlist — strictly precedes every upload. -/
theorem stale_manifest_delete_before_upload (o : Oracle) (ladder : List QualityConfig)
    (files : List String) (savePath : String)
    (h : ∃ key, Event.s3Upload key ∈ (processVideoToHLS o ladder files savePath).events) :
    ∃ pre suf,
      (processVideoToHLS o ladder files savePath).events = pre ++ suf
      ∧ Event.s3Delete (savePath ++ "/master.mpd") ∈ pre
      ∧ ∀ e ∈ pre, e.isUpload = false := by
  obtain ⟨key, hk⟩ := h
  by_cases hd : o.download
  · by_cases hp : o.probe
    · by_cases hth : o.thumbnail
      · by_cases henc : (processQualities o.encode o.segment ladder 0).2
        · by_cases hwm : o.writeMaster
          · refine ⟨[Event.download, Event.probe, Event.thumbnail] ++
                (processQualities o.encode o.segment ladder 0).1 ++
                [Event.writeMasterPlaylist, Event.s3Delete (savePath ++ "/master.mpd")],
              (uploadToS3 o.uploadFile savePath files 0).1 ++
                (if (uploadToS3 o.uploadFile savePath files 0).2 then ([] : List Event)
                  else [Event.postStatus "failed"]) ++
                [Event.fsRemoveInput, Event.fsRemoveOutput, Event.fsRemoveTmp] ++
                (if (uploadToS3 o.uploadFile savePath files 0).2 then [Event.postStatus "done"]
                  else ([] : List Event)), ?_, ?_, ?_⟩
            · simp [processVideoToHLS, tryPhase, hd, hp, hth, henc, hwm]
            · simp
            · intro e he
              simp at he
              rcases he with rfl | rfl | rfl | he | rfl | rfl
              · rfl
              · rfl
              · rfl
              · rcases processQualities_events o.encode o.segment ladder 0 e he with
                  ⟨q, rfl⟩ | ⟨q, rfl⟩ <;> rfl
              · rfl
              · rfl
          · exfalso
            simp [processVideoToHLS, tryPhase, hd, hp, hth, henc, hwm] at hk
            rcases processQualities_events o.encode o.segment ladder 0 _ hk with
              ⟨q, hq⟩ | ⟨q, hq⟩ <;> simp at hq
        · exfalso
          have henc2 : (processQualities o.encode o.segment ladder 0).2 = false := by
            revert henc
            cases (processQualities o.encode o.segment ladder 0).2 <;> simp
          have h4 := run_no_s3_of_enc_fail o ladder files savePath henc2 _ hk
          simp [Event.isS3] at h4
      · exfalso
        simp [processVideoToHLS, tryPhase, hd, hp, hth] at hk
    · exfalso
      simp [processVideoToHLS, tryPhase, hd, hp] at hk
  · exfalso
    simp [processVideoToHLS, tryPhase, hd] at hk

/-- C3 witness: with the encode failing on the 720p rung, the job uploads
nothing — in particular no master playlist — to the destination prefix. -/
theorem transcode_failure_never_uploads_witness :
    Event.s3Upload ("out/42" ++ "/" ++ "master.m3u8") ∉
      (processVideoToHLS oracleEncodeFail QUALITY_CONFIGS ["master.m3u8"] "out/42").events :=
  (transcode_failure_never_uploads oracleEncodeFail QUALITY_CONFIGS ["master.m3u8"] "out/42" 2
    (by decide) (Or.inl (by decide))).1 ("out/42" ++ "/" ++ "master.m3u8")

/-- C4 witness: after a fully successful run with succeeding cleanup, none
of the three scratch paths remains. -/
theorem cleanup_every_exit_path_witness :
    (processVideoToHLS oracleAllOk QUALITY_CONFIGS ["master.m3u8"] "out/42").inputExists = false
    ∧ (processVideoToHLS oracleAllOk QUALITY_CONFIGS ["master.m3u8"] "out/42").outputExists = false
    ∧ (processVideoToHLS oracleAllOk QUALITY_CONFIGS ["master.m3u8"] "out/42").tmpExists = false := by
  obtain ⟨⟨h1, h2, h3⟩, -, -, -⟩ :=
    cleanup_every_exit_path oracleAllOk QUALITY_CONFIGS ["master.m3u8"] "out/42"
  exact ⟨h1 rfl, h2 rfl, h3 rfl⟩

/-- C5 witness: a failed download ends in a `failed` status post. -/
theorem status_best_effort_witness :
    Event.postStatus "failed" ∈
      (processVideoToHLS oracleDownloadFail QUALITY_CONFIGS ["master.m3u8"] "out/42").events :=
  ((status_best_effort oracleDownloadFail QUALITY_CONFIGS ["master.m3u8"] "out/42").2.2.1
    (by decide)).1

/-- C9 witness: a successful run that uploads a file performs the
`master.mpd` delete before any upload. -/
theorem stale_manifest_delete_before_upload_witness :
    Event.s3Delete ("out/42" ++ "/master.mpd") ∈
      (processVideoToHLS oracleAllOk QUALITY_CONFIGS ["master.m3u8"] "out/42").events := by
  obtain ⟨pre, suf, heq, hmem, -⟩ :=
    stale_manifest_delete_before_upload oracleAllOk QUALITY_CONFIGS ["master.m3u8"] "out/42"
      ⟨"out/42" ++ "/" ++ "master.m3u8", by decide⟩
  rw [heq]
  exact List.mem_append_left _ hmem

/-- C9 counterexample: in a successful run the job uploads a master playlist
object, yet the only destination delete is of `master.mpd` — the
pre-existing master playlist object (`master.m3u8`) is never deleted. -/
theorem stale_manifest_delete_cex :
    Event.s3Upload ("out/42" ++ "/" ++ "master.m3u8") ∈
      (processVideoToHLS oracleAllOk QUALITY_CONFIGS ["master.m3u8"] "out/42").events
    ∧ Event.s3Delete ("out/42" ++ "/" ++ "master.m3u8") ∉
      (processVideoToHLS oracleAllOk QUALITY_CONFIGS ["master.m3u8"] "out/42").events
    ∧ Event.s3Delete ("out/42" ++ "/master.mpd") ∈
      (processVideoToHLS oracleAllOk QUALITY_CONFIGS ["master.m3u8"] "out/42").events := by
  refine ⟨by decide, by decide, by decide⟩

/-- C6: the probed frame-rate string is evaluated as a JavaScript
expression, not safely parsed: on a well-formed `numerator/denominator`
string the two agree (frame rate = numerator divided by denominator), but
the source's `eval` also computes arbitrary arithmetic such as `"2*3"`
(and, in the real runtime, executes arbitrary code), which the spec's safe
parser rejects. -/
theorem frameRate_eval_not_safe_parse :
    getVideoInfoFrameRate "30000/1001" = some (30000 / 1001 : Rat)
    ∧ specParseFrameRate "30000/1001" = some (30000 / 1001 : Rat)
    ∧ getVideoInfoFrameRate "2*3" = some 6
    ∧ specParseFrameRate "2*3" = none := by
  refine ⟨?_, ?_, ?_, ?_⟩
  · have h3 : parseAllNat (splitOnChar '/' "30000/1001") = some [30000, 1001] := by decide
    have h4 : evalDivChain "30000/1001" = some ((30000 : Rat) / 1001) := by
      simp [evalDivChain, h3]
    have h2 : splitOnChar '*' "30000/1001" = ["30000/1001"] := by decide
    have h5 : evalProdChain "30000/1001" = some ((30000 : Rat) / 1001) := by
      simp [evalProdChain, h2, evalAllDiv, h4]
    have h1 : splitOnChar '+' "30000/1001" = ["30000/1001"] := by decide
    simp [getVideoInfoFrameRate, h1, evalAllProd, h5]
  · have h0 : splitOnChar '/' "30000/1001" = ["30000", "1001"] := by decide
    have ha : parseNatDigits "30000" = some 30000 := by decide
    have hb : parseNatDigits "1001" = some 1001 := by decide
    simp [specParseFrameRate, h0, ha, hb]
  · have ha : evalDivChain "2" = some (2 : Rat) := by
      have h : parseAllNat (splitOnChar '/' "2") = some [2] := by decide
      simp [evalDivChain, h]
    have hb : evalDivChain "3" = some (3 : Rat) := by
      have h : parseAllNat (splitOnChar '/' "3") = some [3] := by decide
      simp [evalDivChain, h]
    have h2 : splitOnChar '*' "2*3" = ["2", "3"] := by decide
    have h5 : evalProdChain "2*3" = some (6 : Rat) := by
      simp [evalProdChain, h2, evalAllDiv, ha, hb]
      norm_num
    have h1 : splitOnChar '+' "2*3" = ["2*3"] := by decide
    simp [getVideoInfoFrameRate, h1, evalAllProd, h5]
  · have h0 : splitOnChar '/' "2*3" = ["2*3"] := by decide
    have ha : parseNatDigits "2*3" = none := by decide
    simp [specParseFrameRate, h0, ha]

/-- C7: the download GET uses a 60-second timeout and a 50 MiB payload
bound; on failure the interceptor retries at most 3 times, the delay before
retry `i` being exactly `2 ^ i * 1000` ms (2 s, 4 s, 8 s), and the error
surfaces only after the last retry fails. -/
theorem download_retry_policy :
    downloadGetTimeoutMs = 60000
    ∧ axiosMaxContentLength = 50 * 1024 * 1024
    ∧ (∀ a, retryDelay a = 2 ^ a * 1000)
    ∧ ∀ ok : Nat → Bool,
        (axiosRequestRun ok).2.IsPrefix [2000, 4000, 8000]
        ∧ (axiosRequestRun ok).2.length ≤ 3
        ∧ (axiosRequestRun ok).1 = (ok 0 || ok 1 || ok 2 || ok 3) := by
  refine ⟨rfl, rfl, fun a => rfl, fun ok => ?_⟩
  cases h0 : ok 0 <;> cases h1 : ok 1 <;> cases h2 : ok 2 <;> cases h3 : ok 3 <;>
    simp [axiosRequestRun, retryFrom, maxRetries, retryDelay, h0, h1, h2, h3,
      List.IsPrefix]

/-- C8: every job gets 3 total attempts with exponential backoff of base
1000 ms (so `1000 * 2 ^ attempt` ms between attempts), completed jobs are
discarded from the queue, and failed jobs are retained, never auto-deleted. -/
theorem queue_retry_policy :
    videoQueueOptions.attempts = 3
    ∧ videoQueueOptions.backoffType = "exponential"
    ∧ videoQueueOptions.backoffDelay = 1000
    ∧ (∀ attempt, exponentialBackoffDelay videoQueueOptions.backoffDelay attempt =
        1000 * 2 ^ attempt)
    ∧ videoQueueOptions.removeOnComplete = true
    ∧ videoQueueOptions.removeOnFail = false :=
  ⟨rfl, rfl, rfl, fun _ => rfl, rfl, rfl⟩

/-- C10: the worker tries the three payload shapes in fixed precedence
order (nested `data`, then `command`, then flat), and when any extracted
field is missing or falsy it fails with the `Missing required fields` error
before the pipeline runs: no download, transcode or upload event occurs. -/
theorem worker_missing_fields (d : JobData) (o : Oracle) (ladder : List QualityConfig)
    (files : List String) (savePath : String) :
    (∀ l, d.nested = some l → extractJobFields d = (l.reelId, l.videoUrl, l.folderPath))
    ∧ (d.nested = none → ∀ c, d.command = some c →
        extractJobFields d = (c.reelId, c.videoUrl, c.folderPath))
    ∧ (d.nested = none → d.command = none →
        extractJobFields d = (d.flat.reelId, d.flat.videoUrl, d.flat.folderPath))
    ∧ ((jsTruthy (extractJobFields d).1 = false ∨ jsTruthy (extractJobFields d).2.1 = false
          ∨ jsTruthy (extractJobFields d).2.2 = false) →
        workerCallback d o ladder files savePath =
          (WorkerResult.failure "Missing required fields in job data", [])) := by
  refine ⟨?_, ?_, ?_, ?_⟩
  · intro l hl
    simp [extractJobFields, hl]
  · intro hn c hc
    simp [extractJobFields, hn, hc]
  · intro hn hc
    simp [extractJobFields, hn, hc]
  · intro hfr
    rcases hfr with hf | hf | hf <;> simp [workerCallback, hf]

/-- C10 witness: a payload whose nested `data` object lacks `reelId` fails
with the `Missing required fields` error and runs no pipeline event, even
though the flat fields are all present. -/
theorem worker_missing_fields_witness :
    workerCallback
        ⟨some ⟨none, some "https://b.s3.amazonaws.com/in/clip.mp4", some "out/42"⟩,
         none, ⟨some "42", some "u", some "p"⟩⟩
        oracleAllOk QUALITY_CONFIGS ["master.m3u8"] "out/42" =
      (WorkerResult.failure "Missing required fields in job data", []) :=
  (worker_missing_fields
      ⟨some ⟨none, some "https://b.s3.amazonaws.com/in/clip.mp4", some "out/42"⟩,
       none, ⟨some "42", some "u", some "p"⟩⟩
      oracleAllOk QUALITY_CONFIGS ["master.m3u8"] "out/42").2.2.2
    (Or.inl (by decide))
